import Mathlib

/-!
Shallow embedding of `myst_parser/myst_refs.py` (the `MystReferenceResolver`
post-transform) and proofs about its reference-resolution behaviour.

Docutils/Sphinx nodes are modelled as a simple rose tree of elements and
text.  Attributes that the resolver reads or writes (`classes`, `reftitle`)
are carried explicitly; the `rawsource` field of docutils nodes is dropped
from the model because nothing in the resolver's observable behaviour
depends on it.  Host services that the resolver consumes (label/object
registries, document index, link construction, the missing-reference hook)
are parameters of an explicit environment, mirroring the external
interfaces the module relies on.
-/

namespace MystRefs

/-- Attributes of a docutils element that the resolver reads or writes. -/
structure Attrs where
  classes : List String := []
  reftitle : Option String := none
  refdoc : Option String := none
  todoc : Option String := none
  refid : Option String := none
deriving Repr, DecidableEq

/-- A docutils node: either a text leaf or an element with a tag, attributes
and children. -/
inductive Node where
  | text (s : String)
  | elem (tag : String) (attrs : Attrs) (children : List Node)

/-- Children of a node; a text leaf has none. -/
def Node.childrenOf : Node → List Node
  | .text _ => []
  | .elem _ _ cs => cs

/-- The `classes` attribute of a node; a text leaf has none. -/
def getClasses : Node → List String
  | .text _ => []
  | .elem _ a _ => a.classes

/-- Python truthiness of a docutils node: an element is truthy iff it has
children (`Element.__len__`), a text leaf iff its string is nonempty. -/
def truthy : Node → Bool
  | .text s => !s.data.isEmpty
  | .elem _ _ cs => !cs.isEmpty

/-- Whether a node is an element (docutils `nodes.Element`). -/
def isElem : Node → Bool
  | .elem _ _ _ => true
  | .text _ => false

/-- Whether `n[0]` exists and is an element node (`isinstance(res[0], nodes.Element)`). -/
def firstChildIsElem (n : Node) : Bool :=
  match n with
  | .text _ => false
  | .elem _ _ [] => false
  | .elem _ _ (c :: _) => isElem c

/-- Lower-casing of a string, char by char (Python `str.lower`), defined by
structural recursion over the character data so it evaluates by reduction. -/
def pyLower (s : String) : String := String.mk (s.data.map Char.toLower)

/-- Split a character list at a separator character; the accumulator holds
the current (reversed) chunk. -/
def splitCharAux (c : Char) : List Char → List Char → List String
  | [], acc => [String.mk acc.reverse]
  | x :: xs, acc =>
    if x = c then String.mk acc.reverse :: splitCharAux c xs []
    else splitCharAux c xs (x :: acc)

/-- Split a string at a separator character (Python `str.split(c)`). -/
def splitChar (c : Char) (s : String) : List String := splitCharAux c s.data []

/-- Join strings with a separator (Python `sep.join`). -/
def joinSep (sep : String) : List String → String
  | [] => ""
  | [x] => x
  | x :: y :: xs => x ++ sep ++ joinSep sep (y :: xs)

/-- Whether a string starts with `/`. -/
def startsWithSlash (s : String) : Bool :=
  match s.data with
  | [] => false
  | c :: _ => c = '/'

/-- Replace every occurrence of one character by another (the only use of
Python `str.replace` here is on single characters). -/
def charReplace (a b : Char) (s : String) : String :=
  String.mk (s.data.map fun c => if c = a then b else c)

mutual
/-- `node.astext()`: concatenation of all text descendants (the inline nodes
involved here all use an empty child separator). -/
def astext : Node → String
  | .text s => s
  | .elem _ _ cs => astextList cs

/-- Concatenated `astext` of a list of nodes. -/
def astextList : List Node → String
  | [] => ""
  | c :: cs => astext c ++ astextList cs
end

/-- The `NoUri` failure raised by the host when a found target has no
resolvable destination URI in the current output mode. -/
inductive NoUri where
  | noUri
deriving Repr, DecidableEq

/-- A `pending_xref` placeholder node, with the attributes the resolver
reads: `reftype`, `reftarget`, `refexplicit`, the optional `refdoc`
override, and its nested inline child content. -/
structure PendingXref where
  reftype : String
  reftarget : String
  refexplicit : Bool
  refdoc : Option String
  children : List Node

/-- The core (`std`) domain's registries, read by the resolver:
named labels, anonymous labels, declared object types, the object registry
keyed by `(objtype, name)`, and the role associated with each object type. -/
structure StdDomain where
  labels : String → Option (String × String × String)
  anonlabels : String → Option (String × String)
  object_types : List String
  objects : String × String → Option (String × String)
  role_for_objtype : String → String

/-- A non-core reference domain: its name, an optional bulk
`resolve_any_xref` implementation (`none` models `NotImplementedError`),
its declared roles, and the per-role `resolve_xref` routine. -/
structure OtherDomain where
  name : String
  resolveAny : Option (String → Node → List (String × Node))
  roles : List String
  resolveRole : String → String → Node → Option Node

/-- The build environment the resolver consumes: the core domain, the other
domains (in iteration order), the set of known documents, the registered
source-file suffixes, and the registered document titles. -/
structure Env where
  std : StdDomain
  domains : List OtherDomain
  all_docs : List String
  source_suffix : List String
  titles : String → Node

/-- Modelled from the spec: the host's link-construction service — given
(source document, target document, optional anchor, inline content) it
returns a navigable reference node wrapping the content as its only child
(external `sphinx.util.nodes.make_refnode`). -/
def make_refnode (fromdocname todocname : String) (targetid : Option String)
    (child : Node) : Node :=
  Node.elem "reference"
    { refdoc := some fromdocname, todoc := some todocname, refid := targetid }
    [child]

/-- Modelled from the spec: the host's title sanitizer, producing the plain
display form of a title node (external `sphinx.util.nodes.clean_astext`). -/
def clean_astext (n : Node) : String := astext n

/-- Normalize already-split path segments: drop empty and `.` segments, let
`..` pop the previous segment (clamped at the root). The accumulator holds
the kept segments in reverse. -/
def normSegs : List String → List String → List String
  | acc, [] => acc.reverse
  | acc, s :: rest =>
    if s = "" ∨ s = "." then normSegs acc rest
    else if s = ".." then normSegs (acc.drop 1) rest
    else normSegs (s :: acc) rest

/-- Modelled from the spec: the host's document-name join
(external `sphinx.util.docname_join`) — relative targets resolve against
the base document's directory, absolute-style targets from the root. -/
def docname_join (base target : String) : String :=
  let segs :=
    if startsWithSlash target then splitChar '/' target
    else (splitChar '/' base).dropLast ++ splitChar '/' target
  joinSep "/" (normSegs [] segs)

/-- Modelled from Python's `os.path.splitext`: split a path into root and
extension at the last dot of its final component, never splitting inside
the leading dots of that component. -/
def splitext (p : String) : String × String :=
  let comps := splitChar '/' p
  let dir := comps.dropLast
  let base := comps.getLastD ""
  let cs := base.data
  let lead := (cs.takeWhile (fun c => c = '.')).length
  let dotIdxs := (List.range cs.length).filter (fun i => cs.getD i ' ' = '.')
  match dotIdxs.getLast? with
  | some i =>
    if lead < i then
      (joinSep "/" (dir ++ [String.mk (cs.take i)]), String.mk (cs.drop i))
    else (p, "")
  | none => (p, "")

/-- `MystReferenceResolver._resolve_ref_nested`: the section/label strategy.
The target is lower-cased; an explicit caption looks up anonymous labels and
wraps the placeholder's own first child's children; an implicit caption
looks up named labels and displays the registered section name.  Returns
`none` when the lookup yields no document. -/
def resolve_ref_nested (env : Env) (node : PendingXref) (fromdocname : String) :
    Option Node :=
  let target := pyLower node.reftarget
  if node.refexplicit then
    let dl := (env.std.anonlabels target).getD ("", "")
    let innernode :=
      Node.elem "inline" {} (Node.childrenOf (node.children.headD (Node.text "")))
    if dl.1 = "" then none
    else some (make_refnode fromdocname dl.1 (some dl.2) innernode)
  else
    let dls := (env.std.labels target).getD ("", "", "")
    let innernode :=
      Node.elem "inline" {} (if dls.2.2 = "" then [] else [Node.text dls.2.2])
    if dls.1 = "" then none
    else some (make_refnode fromdocname dls.1 (some dls.2.1) innernode)

/-- The inline content the document strategy builds: the placeholder's own
first child's children under a `"doc"`-classed inline for an explicit
caption, else the target document's sanitized title. -/
def docInnerNode (env : Env) (node : PendingXref) (docname : String) : Node :=
  if node.refexplicit then
    Node.elem "inline" { classes := ["doc"] }
      (Node.childrenOf (node.children.headD (Node.text "")))
  else
    let caption := clean_astext (env.titles docname)
    Node.elem "inline" { classes := ["doc"] }
      (if caption = "" then [] else [Node.text caption])

/-- `MystReferenceResolver._resolve_doc_nested`: the document strategy.
Joins the target against the placeholder's owning document, retries once
with a registered source suffix stripped when the joined name is unknown,
and builds the inline content from the placeholder's children (explicit
caption) or the target document's title. -/
def resolve_doc_nested (env : Env) (node : PendingXref) (fromdocname : String) :
    Option Node :=
  let refdoc := node.refdoc.getD fromdocname
  let docname0 := docname_join refdoc node.reftarget
  let docname :=
    if docname0 ∉ env.all_docs ∧ (splitext docname0).2 ∈ env.source_suffix then
      (splitext docname0).1
    else docname0
  if docname ∉ env.all_docs then none
  else some (make_refnode fromdocname docname none (docInnerNode env node docname))

/-- Candidates contributed by the section/label strategy (`if res:` keeps a
non-`None`, truthy result, tagged `"std:ref"`). -/
def refCandidates (env : Env) (refdoc : String) (node : PendingXref) :
    List (String × Node) :=
  match resolve_ref_nested env node refdoc with
  | some res => if truthy res then [("std:ref", res)] else []
  | none => []

/-- Candidates contributed by the document strategy, tagged `"std:doc"`. -/
def docCandidates (env : Env) (refdoc : String) (node : PendingXref) :
    List (String × Node) :=
  match resolve_doc_nested env node refdoc with
  | some res => if truthy res then [("std:doc", res)] else []
  | none => []

/-- The candidate, if any, one declared object type contributes: the
registry key is `(objtype, target)`, with the target lower-cased exactly
when the type is `"term"`; a hit becomes a reference node wrapping
`contnode`, tagged `"std:" ++ role`. -/
def stdObjectCandidate (env : Env) (refdoc target : String) (contnode : Node)
    (objtype : String) : List (String × Node) :=
  let key := if objtype = "term" then (objtype, pyLower target) else (objtype, target)
  match env.std.objects key with
  | some dl =>
    [("std:" ++ env.std.role_for_objtype objtype,
      make_refnode refdoc dl.1 (some dl.2) contnode)]
  | none => []

/-- Candidates contributed by the any-object-type strategy, over every
declared object type in order. -/
def objCandidates (env : Env) (refdoc target : String) (contnode : Node) :
    List (String × Node) :=
  env.std.object_types.flatMap (stdObjectCandidate env refdoc target contnode)

/-- Candidates one non-core domain contributes: the core domain is skipped;
a domain with bulk resolution is asked once; otherwise each declared role is
tried and a hit is kept only when it is truthy and its first child is an
element node. -/
def otherDomainCandidates (_env : Env) (_refdoc : String) (node : PendingXref)
    (contnode : Node) (d : OtherDomain) : List (String × Node) :=
  if d.name = "std" then []
  else
    match d.resolveAny with
    | some f => f node.reftarget contnode
    | none =>
      d.roles.flatMap fun role =>
        match d.resolveRole role node.reftarget contnode with
        | some res =>
          if truthy res && firstChildIsElem res then
            [(d.name ++ ":" ++ role, res)]
          else []
        | none => []

/-- Candidates contributed by all non-core domains, in iteration order. -/
def domainCandidates (env : Env) (refdoc : String) (node : PendingXref)
    (contnode : Node) : List (String × Node) :=
  env.domains.flatMap (otherDomainCandidates env refdoc node contnode)

/-- The full `results` list `resolve_myst_ref` accumulates, in the fixed
strategy order of the code: section/label, then document, then core object
types, then all other domains. -/
def mystCandidates (env : Env) (refdoc : String) (node : PendingXref)
    (contnode : Node) : List (String × Node) :=
  refCandidates env refdoc node
    ++ docCandidates env refdoc node
    ++ objCandidates env refdoc node.reftarget contnode
    ++ domainCandidates env refdoc node contnode

/-- The `stringify` helper of the ambiguity warning: a candidate is shown
as `` :name:`reftitle` ``, the title defaulting to the node's text. -/
def stringify (name : String) (n : Node) : String :=
  let reftitle :=
    match n with
    | .elem _ a _ => a.reftitle.getD (astext n)
    | .text s => s
  ":" ++ name ++ ":`" ++ reftitle ++ "`"

/-- The ambiguity warning message: all candidates, joined by " or ". -/
def ambiguityMessage (target : String) (results : List (String × Node)) : String :=
  let candidates := joinSep " or " (results.map fun p => stringify p.1 p.2)
  "more than one target found for \x27myst\x27 cross-reference " ++ target
    ++ ": could be " ++ candidates

/-- The class stamping applied to the winning candidate: when the node's
first child is an element, that child's `classes` are extended with the
winning domain (the role tag before the first colon) and the role tag with
colons replaced by hyphens; otherwise the node is returned unchanged. -/
def stampNode (res_role : String) (newnode : Node) : Node :=
  let res_domain := (splitChar ':' res_role).headD ""
  match newnode with
  | .text s => .text s
  | .elem tag attrs [] => .elem tag attrs []
  | .elem tag attrs (c :: rest) =>
    match c with
    | .elem ctag cattrs ccs =>
      .elem tag attrs
        (.elem ctag
          { cattrs with
            classes := cattrs.classes
              ++ [res_domain, charReplace ':' '-' res_role] } ccs :: rest)
    | .text s => .elem tag attrs (.text s :: rest)

/-- `MystReferenceResolver.resolve_myst_ref`: collect candidates from all
strategies, warn when more than one was found, and return the first
candidate's node with the style stamp applied.  The second component is the
list of warning messages logged by the call. -/
def resolve_myst_ref (env : Env) (refdoc : String) (node : PendingXref)
    (contnode : Node) : Option Node × List String :=
  match mystCandidates env refdoc node contnode with
  | [] => (none, [])
  | (res_role, newnode) :: rest =>
    let warnings :=
      if rest.isEmpty then []
      else [ambiguityMessage node.reftarget ((res_role, newnode) :: rest)]
    (some (stampNode res_role newnode), warnings)

/-- The fallback content snapshot taken by `run`: a (deep) copy of the
placeholder's first child only; copying is the identity on pure data. -/
def contnodeOf (p : PendingXref) : Node := p.children.headD (Node.text "")

/-- Python's `newnode or contnode`: the left node unless it is falsy. -/
def orNode (n c : Node) : Node := if truthy n then n else c

/-- The observable outcome of `run` on one placeholder: the node that
replaces it, the final value of its `reftype` attribute, and whether the
missing-reference warning was emitted. -/
structure RunResult where
  replacement : Node
  reftype : String
  warned : Bool

/-- The per-placeholder body of `MystReferenceResolver.run`, with the
outcome of `resolve_myst_ref` and of the `missing-reference` hook abstracted
as `Except` values (`Except.error` models a raised `NoUri`).  Mirrors the
`try`/`except` control flow: a `NoUri` from resolution falls back to
`contnode` with the hook never invoked; when resolution returns `none` the
`reftype` is set to `"any"`, the hook runs, and the tag is restored to
`"myst"` only if the hook returns normally. -/
def runOne (contnode : Node) (resolveR hookR : Except NoUri (Option Node)) :
    RunResult :=
  match resolveR with
  | .error _ => ⟨contnode, "myst", false⟩
  | .ok (some n) => ⟨orNode n contnode, "myst", false⟩
  | .ok none =>
    match hookR with
    | .error _ => ⟨contnode, "any", false⟩
    | .ok (some n) => ⟨orNode n contnode, "myst", false⟩
    | .ok none => ⟨contnode, "myst", true⟩

/-- An item of the traversed document: a pending cross-reference or any
other node. -/
inductive DocItem where
  | xref (p : PendingXref)
  | other (n : Node)

/-- `MystReferenceResolver.run` over the traversed document, modelled as the
sequence of traversed nodes: every placeholder whose `reftype` is `"myst"`
is replaced by the single node `runOne` produces; all other items are left
untouched. -/
def runPass (resolveF hookF : PendingXref → Node → Except NoUri (Option Node))
    (doc : List DocItem) : List DocItem :=
  doc.map fun item =>
    match item with
    | .xref p =>
      if p.reftype = "myst" then
        .other (runOne (contnodeOf p) (resolveF p (contnodeOf p))
          (hookF p (contnodeOf p))).replacement
      else .xref p
    | .other n => .other n

/-- Resolution returned `Except.ok none` (zero matches, no failure). -/
def isOkNone : Except NoUri (Option Node) → Bool
  | .ok none => true
  | _ => false

/-- The call raised `NoUri`. -/
def isRaise : Except NoUri (Option Node) → Bool
  | .error _ => true
  | _ => false

/-- The node replacing a placeholder is always the resolved node, the hook's
node, or the fallback content. -/
theorem runOne_replacement_cases (c : Node) (resolveR hookR : Except NoUri (Option Node)) :
    (runOne c resolveR hookR).replacement = c
    ∨ (∃ m, resolveR = Except.ok (some m) ∧ (runOne c resolveR hookR).replacement = m)
    ∨ (∃ m, hookR = Except.ok (some m) ∧ (runOne c resolveR hookR).replacement = m) := by
  cases resolveR with
  | error e => exact Or.inl rfl
  | ok o =>
    cases o with
    | some n =>
      by_cases h : truthy n = true
      · exact Or.inr (Or.inl ⟨n, rfl, by simp [runOne, orNode, h]⟩)
      · exact Or.inl (by simp [runOne, orNode, h])
    | none =>
      cases hookR with
      | error e => exact Or.inl rfl
      | ok o2 =>
        cases o2 with
        | some n =>
          by_cases h : truthy n = true
          · exact Or.inr (Or.inr ⟨n, rfl, by simp [runOne, orNode, h]⟩)
          · exact Or.inl (by simp [runOne, orNode, h])
        | none => exact Or.inl rfl

/-- C2: every placeholder of the special cross-reference kind `"myst"` is
replaced in the output by exactly one node — the resolved link, the
missing-reference hook's result, or the fallback content — and no `"myst"`
placeholder remains in the output tree. -/
theorem c2_placeholder_replaced_by_one_node
    (resolveF hookF : PendingXref → Node → Except NoUri (Option Node))
    (doc : List DocItem) :
    (∀ p, DocItem.xref p ∈ runPass resolveF hookF doc → p.reftype ≠ "myst")
    ∧ ∀ (i : Nat) (p : PendingXref), doc[i]? = some (DocItem.xref p) → p.reftype = "myst" →
        ∃ n, (runPass resolveF hookF doc)[i]? = some (DocItem.other n)
          ∧ (n = contnodeOf p
              ∨ (∃ m, resolveF p (contnodeOf p) = Except.ok (some m) ∧ n = m)
              ∨ (∃ m, hookF p (contnodeOf p) = Except.ok (some m) ∧ n = m)) := by
  constructor
  · intro p hp
    unfold runPass at hp
    rw [List.mem_map] at hp
    obtain ⟨item, -, heq⟩ := hp
    cases item with
    | xref q =>
      by_cases hq : q.reftype = "myst"
      · simp [hq] at heq
      · simp [hq] at heq
        rw [← heq]
        exact hq
    | other n => simp at heq
  · intro i p hi hm
    refine ⟨(runOne (contnodeOf p) (resolveF p (contnodeOf p))
      (hookF p (contnodeOf p))).replacement, ?_, ?_⟩
    · unfold runPass
      rw [List.getElem?_map, hi]
      simp [hm]
    · exact runOne_replacement_cases (contnodeOf p) (resolveF p (contnodeOf p))
        (hookF p (contnodeOf p))

/-- A concrete placeholder with one child, used in witnesses. -/
def pW : PendingXref :=
  { reftype := "myst", reftarget := "x", refexplicit := false, refdoc := none,
    children := [Node.text "x"] }

/-- A resolution function finding nothing. -/
def rFw : PendingXref → Node → Except NoUri (Option Node) := fun _ _ => Except.ok none

/-- A missing-reference hook declining every request. -/
def hFw : PendingXref → Node → Except NoUri (Option Node) := fun _ _ => Except.ok none

/-- A one-item document holding a single `"myst"` placeholder. -/
def docW : List DocItem := [DocItem.xref pW]

/-- Witness for C2 at a concrete document. -/
theorem c2_witness :
    ∃ n, (runPass rFw hFw docW)[0]? = some (DocItem.other n)
      ∧ (n = contnodeOf pW
          ∨ (∃ m, rFw pW (contnodeOf pW) = Except.ok (some m) ∧ n = m)
          ∨ (∃ m, hFw pW (contnodeOf pW) = Except.ok (some m) ∧ n = m)) :=
  (c2_placeholder_replaced_by_one_node rFw hFw docW).2 0 pW rfl rfl

/-- C3 counterexample: when the missing-reference hook raises `NoUri`, the
restore of the kind-tag is skipped, so the detached placeholder keeps the
temporary `"any"` tag instead of being restored to `"myst"`. -/
theorem c3_counterexample_hook_raise_skips_restore :
    ¬ ((runOne (Node.text "x") (Except.ok none)
        (Except.error NoUri.noUri)).reftype = "myst") := by decide

/-- C3 amended: the placeholder's kind-tag ends as the temporary `"any"`
exactly when unified resolution returned nothing and the hook then raised
`NoUri` (the restore being skipped by the exception); in every other case —
including a hook call that returns normally, with or without a node — it is
`"myst"` afterwards. -/
theorem c3_reftype_restored_unless_hook_raises (c : Node)
    (resolveR hookR : Except NoUri (Option Node)) :
    (runOne c resolveR hookR).reftype =
      if isOkNone resolveR && isRaise hookR then "any" else "myst" := by
  cases resolveR with
  | error e => rfl
  | ok o =>
    cases o with
    | some n => rfl
    | none =>
      cases hookR with
      | error e => rfl
      | ok o2 => cases o2 <;> rfl

/-- C7: a `NoUri` failure raised during resolution (or during the hook) is
caught locally: the placeholder is replaced by the fallback content, no
exception propagates, and the replacement is the same as in the
zero-matches case. -/
theorem c7_nouri_caught_as_fallback (c : Node)
    (hookR : Except NoUri (Option Node)) (e e2 : NoUri) :
    (runOne c (Except.error e) hookR).replacement = c
    ∧ (runOne c (Except.ok none) (Except.error e2)).replacement = c
    ∧ (runOne c (Except.error e) hookR).replacement
        = (runOne c (Except.ok none) (Except.ok none)).replacement :=
  ⟨rfl, rfl, rfl⟩

/-- C10: the fallback snapshot is the placeholder's first child only, so for
a placeholder with several children every child after the first is dropped
when resolution falls back (declining hook or `NoUri` failure). -/
theorem c10_fallback_is_first_child_only (p : PendingXref) (c1 c2 : Node)
    (cs : List Node) (e : NoUri) (h : p.children = c1 :: c2 :: cs) :
    contnodeOf p = c1
    ∧ (runOne (contnodeOf p) (Except.ok none) (Except.ok none)).replacement = c1
    ∧ (runOne (contnodeOf p) (Except.ok none) (Except.error e)).replacement = c1 := by
  have hc : contnodeOf p = c1 := by simp [contnodeOf, h]
  refine ⟨hc, ?_, ?_⟩ <;> simp [runOne, hc]

/-- A concrete placeholder with two children, used in the C10 witness. -/
def pTwo : PendingXref :=
  { reftype := "myst", reftarget := "t", refexplicit := true, refdoc := none,
    children := [Node.text "a", Node.text "b"] }

/-- Witness for C10 at a concrete two-child placeholder. -/
theorem c10_witness :
    contnodeOf pTwo = Node.text "a"
    ∧ (runOne (contnodeOf pTwo) (Except.ok none) (Except.ok none)).replacement
        = Node.text "a"
    ∧ (runOne (contnodeOf pTwo) (Except.ok none)
        (Except.error NoUri.noUri)).replacement = Node.text "a" :=
  c10_fallback_is_first_child_only pTwo (Node.text "a") (Node.text "b") []
    NoUri.noUri rfl

/-- C4: with an explicit caption and the lower-cased target registered as an
anonymous label, the section/label strategy returns a link whose inline
content tree is exactly the placeholder's original nested child content. -/
theorem c4_explicit_caption_round_trip
    (env : Env) (node : PendingXref) (fromdocname d l : String)
    (hexp : node.refexplicit = true)
    (hanon : env.std.anonlabels (pyLower node.reftarget) = some (d, l))
    (hd : d ≠ "") :
    ∃ inner,
      resolve_ref_nested env node fromdocname
        = some (make_refnode fromdocname d (some l) inner)
      ∧ Node.childrenOf inner
          = Node.childrenOf (node.children.headD (Node.text "")) := by
  refine ⟨Node.elem "inline" {}
    (Node.childrenOf (node.children.headD (Node.text ""))), ?_, rfl⟩
  simp [resolve_ref_nested, hexp, hanon, hd]

/-- The registry environment for the anonymous-label witness. -/
def envAnon : Env :=
  { std :=
    { labels := fun _ => none
      anonlabels := fun s => if s = "sec-a" then some ("doca", "id-a") else none
      object_types := []
      objects := fun _ => none
      role_for_objtype := fun _ => "" }
    domains := []
    all_docs := []
    source_suffix := []
    titles := fun _ => Node.text "" }

/-- An explicit-caption placeholder whose caption contains nested emphasis. -/
def nodeAnon : PendingXref :=
  { reftype := "myst", reftarget := "sec-a", refexplicit := true, refdoc := none,
    children := [Node.elem "inline" {}
      [Node.elem "emphasis" {} [Node.text "sec"], Node.text " a"]] }

/-- Witness for C4: a nested-emphasis caption round-trips. -/
theorem c4_witness :
    ∃ inner,
      resolve_ref_nested envAnon nodeAnon "index"
        = some (make_refnode "index" "doca" (some "id-a") inner)
      ∧ Node.childrenOf inner
          = Node.childrenOf (nodeAnon.children.headD (Node.text "")) :=
  c4_explicit_caption_round_trip envAnon nodeAnon "index" "doca" "id-a"
    rfl (by decide) (by decide)

/-- The display text of the inline node the implicit-caption branch builds
is exactly the registry-supplied section name. -/
theorem astext_section_inline (s : String) :
    astext (Node.elem "inline" {} (if s = "" then [] else [Node.text s])) = s := by
  by_cases h : s = ""
  · simp [h, astext, astextList]
  · simp [h, astext, astextList]

/-- C5: without an explicit caption the section/label strategy looks the
lower-cased target up among named labels; a hit yields a link displaying
the registry-supplied section name, and a missed lookup yields nothing. -/
theorem c5_implicit_caption_section_name
    (env : Env) (node : PendingXref) (fromdocname d l s : String)
    (hexp : node.refexplicit = false) :
    ((env.std.labels (pyLower node.reftarget) = some (d, l, s)) → d ≠ "" →
      ∃ inner,
        resolve_ref_nested env node fromdocname
          = some (make_refnode fromdocname d (some l) inner)
        ∧ astext inner = s)
    ∧ (env.std.labels (pyLower node.reftarget) = none →
        resolve_ref_nested env node fromdocname = none) := by
  constructor
  · intro hl hd
    exact ⟨Node.elem "inline" {} (if s = "" then [] else [Node.text s]),
      by simp [resolve_ref_nested, hexp, hl, hd], astext_section_inline s⟩
  · intro hl
    simp [resolve_ref_nested, hexp, hl]

/-- The registry environment for the named-label witness. -/
def envSec : Env :=
  { std :=
    { labels := fun t => if t = "sec-b" then some ("docb", "id-b", "Background") else none
      anonlabels := fun _ => none
      object_types := []
      objects := fun _ => none
      role_for_objtype := fun _ => "" }
    domains := []
    all_docs := []
    source_suffix := []
    titles := fun _ => Node.text "" }

/-- An implicit-caption placeholder targeting the named label `"sec-b"`. -/
def nodeSec : PendingXref :=
  { reftype := "myst", reftarget := "sec-b", refexplicit := false, refdoc := none,
    children := [Node.elem "inline" {} [Node.text "sec-b"]] }

/-- Witness for C5: the named label `"sec-b"` resolves with display content
`"Background"`. -/
theorem c5_witness :
    ∃ inner,
      resolve_ref_nested envSec nodeSec "index"
        = some (make_refnode "index" "docb" (some "id-b") inner)
      ∧ astext inner = "Background" :=
  (c5_implicit_caption_section_name envSec nodeSec "index" "docb" "id-b"
    "Background" rfl).1 (by decide) (by decide)

/-- C9: the object registry key lower-cases the target exactly for the
`"term"` object type — the term lookup cannot distinguish targets with the
same lower-casing, every other object type is keyed by the target verbatim —
while the section/label strategy always lower-cases the target. -/
theorem c9_term_case_insensitive_others_sensitive
    (env : Env) (node : PendingXref) (refdoc : String) (contnode : Node)
    (s t ty : String) (h : pyLower s = pyLower t) (hty : ty ≠ "term") :
    resolve_ref_nested env { node with reftarget := s } refdoc
      = resolve_ref_nested env { node with reftarget := t } refdoc
    ∧ stdObjectCandidate env refdoc s contnode "term"
      = stdObjectCandidate env refdoc t contnode "term"
    ∧ stdObjectCandidate env refdoc s contnode ty
      = (match env.std.objects (ty, s) with
         | some dl => [("std:" ++ env.std.role_for_objtype ty,
             make_refnode refdoc dl.1 (some dl.2) contnode)]
         | none => []) := by
  refine ⟨?_, ?_, ?_⟩
  · simp [resolve_ref_nested, h]
  · simp [stdObjectCandidate, h]
  · simp [stdObjectCandidate, hty]

/-- The registry environment for the case-sensitivity witness: a term
registered lower-case and a non-term object registered with a capital. -/
def envCase : Env :=
  { std :=
    { labels := fun tg => if tg = "foo" then some ("doca", "id-foo", "Foo") else none
      anonlabels := fun _ => none
      object_types := ["term", "confval"]
      objects := fun k =>
        if k = ("term", "foo") then some ("docg", "term-foo")
        else if k = ("confval", "Foo") then some ("doch", "confval-foo")
        else none
      role_for_objtype := fun ty => ty }
    domains := []
    all_docs := []
    source_suffix := []
    titles := fun _ => Node.text "" }

/-- A placeholder used to instantiate the case-sensitivity theorem. -/
def nodeCase : PendingXref :=
  { reftype := "myst", reftarget := "foo", refexplicit := false, refdoc := none,
    children := [Node.elem "inline" {} [Node.text "foo"]] }

/-- Witness for C9 at targets `"Foo"` and `"foo"` and object type `"confval"`. -/
theorem c9_witness :
    resolve_ref_nested envCase { nodeCase with reftarget := "Foo" } "index"
      = resolve_ref_nested envCase { nodeCase with reftarget := "foo" } "index"
    ∧ stdObjectCandidate envCase "index" "Foo" (contnodeOf nodeCase) "term"
      = stdObjectCandidate envCase "index" "foo" (contnodeOf nodeCase) "term"
    ∧ stdObjectCandidate envCase "index" "Foo" (contnodeOf nodeCase) "confval"
      = (match envCase.std.objects ("confval", "Foo") with
         | some dl => [("std:" ++ envCase.std.role_for_objtype "confval",
             make_refnode "index" dl.1 (some dl.2) (contnodeOf nodeCase))]
         | none => []) :=
  c9_term_case_insensitive_others_sensitive envCase nodeCase "index"
    (contnodeOf nodeCase) "Foo" "foo" "confval" (by decide) (by decide)

/-- C6: the document strategy joins the target against the placeholder's
owning document (`"./sub/page"` from `"guide/index"` gives
`"guide/sub/page"`); when the joined name is unknown and carries a
registered suffix, the suffix-stripped name is retried exactly once — the
outcome is decided solely by whether the stripped name is a known document,
with no second strip. -/
theorem c6_doc_join_and_single_suffix_retry
    (env : Env) (node : PendingXref) (fromdocname : String)
    (h1 : docname_join (node.refdoc.getD fromdocname) node.reftarget ∉ env.all_docs)
    (h2 : (splitext (docname_join (node.refdoc.getD fromdocname) node.reftarget)).2
            ∈ env.source_suffix) :
    docname_join "guide/index" "./sub/page" = "guide/sub/page"
    ∧ resolve_doc_nested env node fromdocname
        = (if (splitext (docname_join (node.refdoc.getD fromdocname) node.reftarget)).1
              ∈ env.all_docs
           then some (make_refnode fromdocname
             (splitext (docname_join (node.refdoc.getD fromdocname) node.reftarget)).1
             none
             (docInnerNode env node
               (splitext (docname_join (node.refdoc.getD fromdocname) node.reftarget)).1))
           else none) := by
  refine ⟨by decide, ?_⟩
  have hcond : docname_join (node.refdoc.getD fromdocname) node.reftarget
      ∉ env.all_docs
      ∧ (splitext (docname_join (node.refdoc.getD fromdocname)
          node.reftarget)).2 ∈ env.source_suffix := ⟨h1, h2⟩
  simp only [resolve_doc_nested]
  rw [if_pos hcond]
  by_cases h3 : (splitext (docname_join (node.refdoc.getD fromdocname)
      node.reftarget)).1 ∈ env.all_docs
  · rw [if_neg (not_not_intro h3), if_pos h3]
  · rw [if_pos h3, if_neg h3]

/-- The document index for the C6 witness. -/
def envDocs : Env :=
  { std :=
    { labels := fun _ => none
      anonlabels := fun _ => none
      object_types := []
      objects := fun _ => none
      role_for_objtype := fun _ => "" }
    domains := []
    all_docs := ["guide/sub/page"]
    source_suffix := [".md"]
    titles := fun _ => Node.elem "title" {} [Node.text "Page Title"] }

/-- A placeholder referencing `"./sub/page.md"` from `"guide/index"`. -/
def nodeDocs : PendingXref :=
  { reftype := "myst", reftarget := "./sub/page.md", refexplicit := false,
    refdoc := none, children := [Node.elem "inline" {} [Node.text "page"]] }

/-- Witness for C6: `"./sub/page.md"` from `"guide/index"` joins to
`"guide/sub/page.md"`, is unknown, and resolves after one suffix strip. -/
theorem c6_witness :
    docname_join "guide/index" "./sub/page" = "guide/sub/page"
    ∧ resolve_doc_nested envDocs nodeDocs "guide/index"
        = (if (splitext (docname_join (nodeDocs.refdoc.getD "guide/index")
              nodeDocs.reftarget)).1 ∈ envDocs.all_docs
           then some (make_refnode "guide/index"
             (splitext (docname_join (nodeDocs.refdoc.getD "guide/index")
               nodeDocs.reftarget)).1
             none
             (docInnerNode envDocs nodeDocs
               (splitext (docname_join (nodeDocs.refdoc.getD "guide/index")
                 nodeDocs.reftarget)).1))
           else none) :=
  c6_doc_join_and_single_suffix_retry envDocs nodeDocs "guide/index"
    (by decide) (by decide)

/-- C1: with more than one candidate, the routine returns the head of the
candidate list — the first hit in the fixed strategy order section/label,
document, core object types, other domains — (with the style stamp applied)
and logs exactly one ambiguity warning listing every candidate. -/
theorem c1_first_match_wins_single_warning
    (env : Env) (refdoc : String) (node : PendingXref) (contnode : Node)
    (h : 1 < (mystCandidates env refdoc node contnode).length) :
    (resolve_myst_ref env refdoc node contnode).1
      = (mystCandidates env refdoc node contnode).head?.map
          (fun p => stampNode p.1 p.2)
    ∧ (resolve_myst_ref env refdoc node contnode).2
      = [ambiguityMessage node.reftarget (mystCandidates env refdoc node contnode)]
    ∧ (mystCandidates env refdoc node contnode).head?
      = (if (refCandidates env refdoc node).isEmpty then
           if (docCandidates env refdoc node).isEmpty then
             if (objCandidates env refdoc node.reftarget contnode).isEmpty then
               (domainCandidates env refdoc node contnode).head?
             else (objCandidates env refdoc node.reftarget contnode).head?
           else (docCandidates env refdoc node).head?
         else (refCandidates env refdoc node).head?) := by
  have hprio : (mystCandidates env refdoc node contnode).head?
      = (if (refCandidates env refdoc node).isEmpty then
           if (docCandidates env refdoc node).isEmpty then
             if (objCandidates env refdoc node.reftarget contnode).isEmpty then
               (domainCandidates env refdoc node contnode).head?
             else (objCandidates env refdoc node.reftarget contnode).head?
           else (docCandidates env refdoc node).head?
         else (refCandidates env refdoc node).head?) := by
    cases hr : refCandidates env refdoc node with
    | cons a as => simp [mystCandidates, hr]
    | nil =>
      cases hd2 : docCandidates env refdoc node with
      | cons a as => simp [mystCandidates, hr, hd2]
      | nil =>
        cases ho : objCandidates env refdoc node.reftarget contnode with
        | cons a as => simp [mystCandidates, hr, hd2, ho]
        | nil => simp [mystCandidates, hr, hd2, ho]
  rcases hm : mystCandidates env refdoc node contnode with _ | ⟨⟨role, n⟩, tl⟩
  · rw [hm] at h
    simp at h
  · have htl : tl.isEmpty = false := by
      rw [hm] at h
      cases tl with
      | nil => simp at h
      | cons a as => rfl
    refine ⟨?_, ?_, ?_⟩
    · simp [resolve_myst_ref, hm]
    · simp [resolve_myst_ref, hm, htl]
    · rw [← hm]
      exact hprio

/-- The registry environment for the ambiguity witness: the target `"foo"`
is both a named section label and a `"confval"` object. -/
def envAmb : Env :=
  { std :=
    { labels := fun tg => if tg = "foo" then some ("doca", "id-foo", "Foo Section") else none
      anonlabels := fun _ => none
      object_types := ["confval"]
      objects := fun k => if k = ("confval", "foo") then some ("docb", "confval-foo") else none
      role_for_objtype := fun _ => "confval" }
    domains := []
    all_docs := []
    source_suffix := []
    titles := fun _ => Node.text "" }

/-- A placeholder targeting the doubly-registered `"foo"`. -/
def nodeAmb : PendingXref :=
  { reftype := "myst", reftarget := "foo", refexplicit := false, refdoc := none,
    children := [Node.elem "inline" {} [Node.text "foo"]] }

/-- Witness for C1: with `"foo"` matched by both the section-label and the
object-type strategies, the section-label hit wins and exactly one
ambiguity warning is logged. -/
theorem c1_witness :
    1 < (mystCandidates envAmb "index" nodeAmb (contnodeOf nodeAmb)).length
    ∧ ((resolve_myst_ref envAmb "index" nodeAmb (contnodeOf nodeAmb)).1
        = (mystCandidates envAmb "index" nodeAmb (contnodeOf nodeAmb)).head?.map
            (fun p => stampNode p.1 p.2)
      ∧ (resolve_myst_ref envAmb "index" nodeAmb (contnodeOf nodeAmb)).2
        = [ambiguityMessage nodeAmb.reftarget
            (mystCandidates envAmb "index" nodeAmb (contnodeOf nodeAmb))]
      ∧ (mystCandidates envAmb "index" nodeAmb (contnodeOf nodeAmb)).head?
        = (if (refCandidates envAmb "index" nodeAmb).isEmpty then
             if (docCandidates envAmb "index" nodeAmb).isEmpty then
               if (objCandidates envAmb "index" nodeAmb.reftarget
                   (contnodeOf nodeAmb)).isEmpty then
                 (domainCandidates envAmb "index" nodeAmb (contnodeOf nodeAmb)).head?
               else (objCandidates envAmb "index" nodeAmb.reftarget
                 (contnodeOf nodeAmb)).head?
             else (docCandidates envAmb "index" nodeAmb).head?
           else (refCandidates envAmb "index" nodeAmb).head?)) :=
  ⟨by decide, c1_first_match_wins_single_warning envAmb "index" nodeAmb
    (contnodeOf nodeAmb) (by decide)⟩

/-- The registry environment for the stamping claim: only the section-label
strategy matches `"foo"`, so there is a single winning candidate. -/
def envStamp : Env :=
  { std :=
    { labels := fun tg => if tg = "foo" then some ("doca", "id-foo", "Foo") else none
      anonlabels := fun _ => none
      object_types := []
      objects := fun _ => none
      role_for_objtype := fun _ => "" }
    domains := []
    all_docs := []
    source_suffix := []
    titles := fun _ => Node.text "" }

/-- A placeholder targeting the label `"foo"` of `envStamp`. -/
def nodeStamp : PendingXref :=
  { reftype := "myst", reftarget := "foo", refexplicit := false, refdoc := none,
    children := [Node.elem "inline" {} [Node.text "foo"]] }

/-- C8 counterexample: the two style tags are not placed on the returned
node itself — its own `classes` stay empty; they land on its first child. -/
theorem c8_counterexample_returned_node_not_stamped :
    ¬ (∃ n, (resolve_myst_ref envStamp "index" nodeStamp (contnodeOf nodeStamp)).1
          = some n
        ∧ "std" ∈ getClasses n ∧ "std-ref" ∈ getClasses n) := by
  intro hx
  obtain ⟨n, hn, h1, -⟩ := hx
  have hv : (resolve_myst_ref envStamp "index" nodeStamp (contnodeOf nodeStamp)).1
      = some (Node.elem "reference"
          { refdoc := some "index", todoc := some "doca", refid := some "id-foo" }
          [Node.elem "inline" { classes := ["std", "std-ref"] } [Node.text "Foo"]]) := rfl
  rw [hv] at hn
  rw [(Option.some.inj hn).symm] at h1
  simp [getClasses] at h1

/-- C8 amended: after the winning candidate is picked, the two style tags —
the registry name before the colon and the role tag with its colon replaced
by a hyphen — are appended to the `classes` of the returned node's first
child (when that child is an element node); the returned node's own
attributes are unchanged. -/
theorem c8_amended_stamp_on_first_child
    (env : Env) (refdoc : String) (node : PendingXref) (contnode : Node)
    (role tag ctag : String) (attrs cattrs : Attrs) (ccs cs : List Node)
    (rest : List (String × Node))
    (h : mystCandidates env refdoc node contnode
          = (role, Node.elem tag attrs (Node.elem ctag cattrs ccs :: cs)) :: rest) :
    (resolve_myst_ref env refdoc node contnode).1
      = some (Node.elem tag attrs
          (Node.elem ctag
            { cattrs with classes := cattrs.classes
                ++ [(splitChar ':' role).headD "", charReplace ':' '-' role] }
            ccs :: cs)) := by
  simp [resolve_myst_ref, h, stampNode]

/-- Witness for the amended C8: the winner tagged `"std:ref"` gets
`["std", "std-ref"]` appended to its first child's classes. -/
theorem c8_witness :
    (resolve_myst_ref envStamp "index" nodeStamp (contnodeOf nodeStamp)).1
      = some (Node.elem "reference"
          { refdoc := some "index", todoc := some "doca", refid := some "id-foo" }
          [Node.elem "inline" { classes := ["std", "std-ref"] } [Node.text "Foo"]]) :=
  c8_amended_stamp_on_first_child envStamp "index" nodeStamp (contnodeOf nodeStamp)
    "std:ref" "reference" "inline"
    { refdoc := some "index", todoc := some "doca", refid := some "id-foo" } {}
    [Node.text "Foo"] [] [] rfl

end MystRefs
